import Mathlib

/- Verification of the thermal tyre detection pipeline.

   Shallow embedding of the per-frame detection and zone-analysis pipeline of
   src/pico/c_version/test_mlx_with_detection.c together with the earlier
   algorithm variant in src/pico/c_version/thermal_algorithm.c and the output
   boundary helpers in src/pico/c_version/communication.c and
   src/pico/c_version/i2c_slave.c.

   Modelling conventions:
   * C float values are modelled as exact rationals; float constants such as
     0.3f, 1.8f and 1.4826f are embedded as the decimal rationals they denote.
   * C float-to-int conversion truncates toward zero, modelled by truncQ.
   * C int division truncates toward zero, modelled by Int.tdiv.
   * 2-D frames are functions from row and column index to temperature; row
     lists are Lists of 32 rationals.
   * the standard-deviation field of the C ZoneStats (a square root) is not
     representable in the rational model and is not needed by any property
     considered here, so it is omitted from the embedded ZoneStats. -/

namespace ThermalTyre

set_option maxRecDepth 100000

/-- Truncation toward zero, the semantics of C float-to-int conversion:
the floor for non-negative values, the ceiling (written as a negated floor)
for negative ones. -/
def truncQ (q : ℚ) : ℤ := if 0 ≤ q then q.floor else -((-q).floor)

/- Configuration constants: the static DetectionConfig of
   test_mlx_with_detection.c. -/

def min_temp : ℚ := 0
def max_temp : ℚ := 180
def brake_temp_threshold : ℚ := 180
def mad_uniform_threshold : ℚ := 1/2
def k_floor : ℚ := 5
def k_multiplier : ℚ := 2
def delta_floor : ℚ := 3
def delta_multiplier : ℚ := 9/5
def max_fail_count : ℕ := 2
def centre_col : ℕ := 16
def min_tyre_width : ℤ := 6
def max_tyre_width : ℤ := 28
def max_width_change_ratio : ℚ := 3/10
def ema_alpha : ℚ := 3/10
def persistence_frames : ℕ := 2

/-- Ascending insertion of an element into a sorted list; building block of
sortQ. -/
def insertSorted (x : ℚ) : List ℚ → List ℚ
  | [] => [x]
  | y :: ys => if x ≤ y then x :: y :: ys else y :: insertSorted x ys

/-- Ascending sort; the exchange sort inside quick_select_median sorts the
array ascending, and any ascending sort yields the same value sequence. -/
def sortQ : List ℚ → List ℚ
  | [] => []
  | x :: xs => insertSorted x (sortQ xs)

/-- calculate_median from test_mlx_with_detection.c (via quick_select_median):
sort ascending, take the middle element, or the mean of the two middle
elements for even length; 0 for empty input. -/
def calculate_median (data : List ℚ) : ℚ :=
  if data.length = 0 then 0
  else
    let s := sortQ data
    if data.length % 2 = 0 then
      (s.getD (data.length / 2 - 1) 0 + s.getD (data.length / 2) 0) / 2
    else s.getD (data.length / 2) 0

/-- calculate_mad from test_mlx_with_detection.c: median of absolute
deviations from the median, scaled by 1.4826 (= 7413/5000). -/
def calculate_mad (data : List ℚ) : ℚ :=
  if data.length = 0 then 0
  else
    let m := calculate_median data
    calculate_median (data.map fun x => |x - m|) * (7413/5000)

/-- The already-processed left neighbour of the current pixel, when one
exists. -/
def prevNeighbor : Option ℚ → List ℚ
  | some p => [p]
  | none => []

/-- The still-unprocessed right neighbour of the current pixel, when one
exists. -/
def nextNeighbor : List ℚ → List ℚ
  | y :: _ => [y]
  | [] => []

/-- Sequential in-place pass of remove_hot_pixels: prev carries the already
processed value of the left neighbour, while the right neighbour is read from
the unprocessed remainder, exactly as the C loop reads the partially updated
row array. -/
def removeHotAux : Option ℚ → List ℚ → List ℚ
  | _, [] => []
  | prev, x :: rest =>
    if brake_temp_threshold < x then
      let neighbors := prevNeighbor prev ++ nextNeighbor rest
      let x' := if 0 < neighbors.length then calculate_median neighbors else x
      x' :: removeHotAux (some x') rest
    else
      x :: removeHotAux (some x) rest

/-- remove_hot_pixels from test_mlx_with_detection.c, on one row. -/
def remove_hot_pixels (row : List ℚ) : List ℚ := removeHotAux none row

/-- median_filter_3 from test_mlx_with_detection.c, on a 32-column profile:
2-element medians at the two edges, 3-element medians inside. -/
def median_filter_3 (input : ℕ → ℚ) (i : ℕ) : ℚ :=
  if i = 0 then calculate_median [input 0, input 1]
  else if i = 31 then calculate_median [input 30, input 31]
  else calculate_median [input (i - 1), input i, input (i + 1)]

/-- TemporalState of test_mlx_with_detection.c; the prev_detections[2][2]
array is embedded as the two pairs prev0 (slot 0, oldest) and prev1
(slot 1, newest). -/
structure TemporalState where
  prev_profile : ℕ → ℚ
  has_previous : Bool
  prev0 : ℤ × ℤ
  prev1 : ℤ × ℤ
  prev_detection_count : ℕ

/-- The zero-initialised static temporal_state. -/
def initTemporalState : TemporalState :=
  { prev_profile := fun _ => 0
    has_previous := false
    prev0 := (0, 0)
    prev1 := (0, 0)
    prev_detection_count := 0 }

/-- apply_ema from test_mlx_with_detection.c: returns the smoothed profile
and the updated state. -/
def apply_ema (current : ℕ → ℚ) (st : TemporalState) : (ℕ → ℚ) × TemporalState :=
  if st.has_previous then
    let out := fun i => ema_alpha * current i + (1 - ema_alpha) * st.prev_profile i
    (out, { st with prev_profile := out })
  else
    (current, { st with prev_profile := current, has_previous := true })

/-- Loop body of grow_region for one direction: cols is the sequence of
column indices visited (centre-1 down to 0 on the left, centre+1 up to 31 on
the right), boundary the recorded span edge, failCount the per-direction
failure counter.  A column satisfying ok becomes the new boundary and resets
the counter; otherwise the counter increments and the scan breaks once it
exceeds maxFail. -/
def growLoop (ok : ℕ → Bool) (maxFail : ℕ) : List ℕ → ℕ → ℕ → ℕ
  | [], boundary, _ => boundary
  | i :: rest, boundary, failCount =>
    if ok i then growLoop ok maxFail rest i 0
    else if maxFail < failCount + 1 then boundary
    else growLoop ok maxFail rest boundary (failCount + 1)

/-- The dual acceptance criteria of grow_region: local similarity to the seed
column (within k), or the global contrast test selected by the inverted flag.
The thresholds delta, inverted, local_mad and k are computed exactly as in
the C function; the source's clipping of the two-column local window at the
sensor edges is inactive for centre_col = 16. -/
def growOk (profile : ℕ → ℚ) (median_temp mad_global : ℚ) : ℕ → Bool :=
  let centre_temp := profile centre_col
  let delta := max delta_floor (delta_multiplier * mad_global)
  let inverted := decide (centre_temp < median_temp - delta)
  let local_mad := calculate_mad ((List.range' (centre_col - 2) 5).map profile)
  let k := max k_floor (k_multiplier * local_mad)
  fun i =>
    decide (|profile i - centre_temp| ≤ k) ||
      (if inverted then decide (profile i ≤ median_temp - delta)
       else decide (median_temp + delta ≤ profile i))

/-- Columns visited when growing left: centre-1 down to 0. -/
def leftCols : List ℕ := (List.range centre_col).reverse

/-- Columns visited when growing right: centre+1 up to 31. -/
def rightCols : List ℕ := List.range' (centre_col + 1) 15

/-- grow_region from test_mlx_with_detection.c: grow independently left and
right from the centre column. -/
def grow_region (profile : ℕ → ℚ) (median_temp mad_global : ℚ) : ℕ × ℕ :=
  let ok := growOk profile median_temp mad_global
  (growLoop ok max_fail_count leftCols centre_col 0,
   growLoop ok max_fail_count rightCols centre_col 0)

/-- apply_geometry_constraints from test_mlx_with_detection.c.  Both width
branches test the width computed on entry; the minimum-width branch reflects
out-of-bounds overflow onto the opposite side, and the function ends with a
clamp of both edges to [0, 31]. -/
def apply_geometry_constraints (l r : ℤ) : ℤ × ℤ :=
  let width := r - l + 1
  let p1 :=
    if width < min_tyre_width then
      let expand := Int.tdiv (min_tyre_width - width) 2
      let l1 := l - expand
      let r1 := r + expand
      let p := if l1 < 0 then ((0 : ℤ), r1 + (-l1)) else (l1, r1)
      if 32 ≤ p.2 then (p.1 - (p.2 - 31), (31 : ℤ)) else p
    else (l, r)
  let p2 :=
    if max_tyre_width < width then
      (p1.1 + Int.tdiv (width - max_tyre_width) 2,
       p1.2 - Int.tdiv (width - max_tyre_width) 2)
    else p1
  (max p2.1 0, min p2.2 31)

/-- Width-adjustment core of apply_temporal_constraints, before the final
[0, 31] clamp.  target_width is a C int assignment from a float expression,
hence truncated; both branch guards compare the width computed on entry. -/
def apply_temporal_core (l r prev_left prev_right : ℤ) : ℤ × ℤ :=
  let prev_width := prev_right - prev_left + 1
  let current_width := r - l + 1
  let max_change : ℚ := (prev_width : ℚ) * max_width_change_ratio
  let p1 :=
    if (prev_width : ℚ) + max_change < (current_width : ℚ) then
      let target_width := truncQ ((prev_width : ℚ) + max_change)
      let shrink := Int.tdiv (current_width - target_width) 2
      (l + shrink, r - shrink)
    else (l, r)
  if (current_width : ℚ) < (prev_width : ℚ) - max_change then
    let target_width := truncQ ((prev_width : ℚ) - max_change)
    let expand := Int.tdiv (target_width - current_width) 2
    (p1.1 - expand, p1.2 + expand)
  else p1

/-- apply_temporal_constraints from test_mlx_with_detection.c: compares the
current span against history slot 0 and clamps the adjusted span to [0, 31];
returns the span unchanged when the history is empty. -/
def apply_temporal_constraints (l r : ℤ) (st : TemporalState) : ℤ × ℤ :=
  if st.prev_detection_count = 0 then (l, r)
  else
    let p := apply_temporal_core l r st.prev0.1 st.prev0.2
    (max p.1 0, min p.2 31)

/-- apply_persistence from test_mlx_with_detection.c.  With fewer than
persistence_frames stored detections the current span is stored and returned
unchanged; otherwise the quadratically weighted average (weights 1, 4 for the
two stored spans, 9 for the current span, total 14) is truncated to integer
columns, stored as the newest history entry (evicting the oldest) and
returned. -/
def apply_persistence (l r : ℤ) (st : TemporalState) : (ℤ × ℤ) × TemporalState :=
  if st.prev_detection_count < persistence_frames then
    let st1 :=
      if st.prev_detection_count = 0 then
        { st with prev0 := (l, r), prev_detection_count := st.prev_detection_count + 1 }
      else
        { st with prev1 := (l, r), prev_detection_count := st.prev_detection_count + 1 }
    ((l, r), st1)
  else
    let weighted_left : ℚ := (st.prev0.1 : ℚ) * 1 + (st.prev1.1 : ℚ) * 4 + (l : ℚ) * 9
    let weighted_right : ℚ := (st.prev0.2 : ℚ) * 1 + (st.prev1.2 : ℚ) * 4 + (r : ℚ) * 9
    let total_weight : ℚ := 14
    let lOut := truncQ (weighted_left / total_weight)
    let rOut := truncQ (weighted_right / total_weight)
    ((lOut, rOut), { st with prev0 := st.prev1, prev1 := (lOut, rOut) })

/-- ZoneStats of test_mlx_with_detection.c (standard deviation omitted, see
the header comment). -/
structure ZoneStats where
  avg : ℚ
  median : ℚ
  mad : ℚ
  min : ℚ
  max : ℚ
  range : ℚ
deriving DecidableEq

/-- The all-zero ZoneStats produced by memset for an empty zone. -/
def zeroZone : ZoneStats := ⟨0, 0, 0, 0, 0, 0⟩

/-- Pixels gathered by calculate_zone_stats: rows 10-13, columns from l to r
bounded by the sensor width, rows outer and columns inner. -/
def zonePixels (frame : ℕ → ℕ → ℚ) (l r : ℤ) : List ℚ :=
  (List.range' 10 4).flatMap fun row =>
    ((List.range 32).filter fun c : ℕ => decide (l ≤ (c : ℤ) ∧ (c : ℤ) ≤ r)).map (frame row)

/-- calculate_zone_stats from test_mlx_with_detection.c. -/
def calculate_zone_stats (frame : ℕ → ℕ → ℚ) (l r : ℤ) : ZoneStats :=
  let pixels := zonePixels frame l r
  if pixels.length = 0 then zeroZone
  else
    let mn := pixels.foldl min (pixels.getD 0 0)
    let mx := pixels.foldl max (pixels.getD 0 0)
    { avg := pixels.sum / (pixels.length : ℚ)
      median := calculate_median pixels
      mad := calculate_mad pixels
      min := mn
      max := mx
      range := mx - mn }

/-- TyreData of test_mlx_with_detection.c. -/
structure TyreData where
  left : ZoneStats
  centre : ZoneStats
  right : ZoneStats
  detected : Bool
  span_start : ℤ
  span_end : ℤ
  tyre_width : ℤ
  confidence : ℚ
  lateral_gradient : ℚ
deriving DecidableEq

/-- The zeroed TyreData the caller prepares with memset before detect_tyre. -/
def zeroTyre : TyreData := ⟨zeroZone, zeroZone, zeroZone, false, 0, 0, 0, 0, 0⟩

/-- Lateral gradient of analyze_tyre: running minimum and maximum of the
smoothed profile over the span, starting from the value at the left edge. -/
def lateralGradient (profile : ℕ → ℚ) (l r : ℕ) : ℚ :=
  let rest := (List.range' (l + 1) (r - l)).map profile
  let mn := rest.foldl min (profile l)
  let mx := rest.foldl max (profile l)
  mx - mn

/-- analyze_tyre from test_mlx_with_detection.c: zone split into thirds with
degenerate-width clamps, zone statistics from the raw frame, lateral gradient
from the smoothed profile, and the width/gradient confidence score. -/
def analyze_tyre (frame : ℕ → ℕ → ℚ) (profile : ℕ → ℚ) (l r : ℤ) : TyreData :=
  let w := r - l + 1
  let third := Int.tdiv w 3
  let left_end' := if l + third - 1 < l then l else l + third - 1
  let centre_end' := if r - third < l + third then l + third else r - third
  let right_start' := if r < r - third + 1 then r else r - third + 1
  let grad := lateralGradient profile l.toNat r.toNat
  let width_score : ℚ := if min_tyre_width ≤ w ∧ w ≤ max_tyre_width then 1 else 1/2
  let gradient_score : ℚ := min (grad / 10) 1
  { left := calculate_zone_stats frame l left_end'
    centre := calculate_zone_stats frame (l + third) centre_end'
    right := calculate_zone_stats frame right_start' r
    detected := true
    span_start := l
    span_end := r
    tyre_width := w
    confidence := (width_score + gradient_score) / 2
    lateral_gradient := grad }

/-- One raw sensor row as a list of 32 column values. -/
def rowCols (frame : ℕ → ℕ → ℚ) (row : ℕ) : List ℚ := (List.range 32).map (frame row)

/-- A middle row after hot-pixel removal. -/
def cleanedRow (frame : ℕ → ℕ → ℚ) (row : ℕ) : List ℚ := remove_hot_pixels (rowCols frame row)

/-- The 1-D profile of detect_tyre: per-column median of the four cleaned
middle rows (rows 10-13), clamped to [min_temp, max_temp]. -/
def rawProfile (frame : ℕ → ℕ → ℚ) (col : ℕ) : ℚ :=
  let v := calculate_median
    [(cleanedRow frame 10).getD col 0, (cleanedRow frame 11).getD col 0,
     (cleanedRow frame 12).getD col 0, (cleanedRow frame 13).getD col 0]
  min (max v min_temp) max_temp

/-- The profile after the 3-tap spatial median filter. -/
def filteredProfile (frame : ℕ → ℕ → ℚ) : ℕ → ℚ := median_filter_3 (rawProfile frame)

/-- The profile after EMA temporal smoothing (first component of apply_ema). -/
def detectSmoothed (frame : ℕ → ℕ → ℚ) (st : TemporalState) : ℕ → ℚ :=
  (apply_ema (filteredProfile frame) st).1

/-- A 32-column profile as a list. -/
def profileList (p : ℕ → ℚ) : List ℚ := (List.range 32).map p

/-- mad_global of detect_tyre: scaled MAD of the smoothed profile. -/
def madGlobalOf (frame : ℕ → ℕ → ℚ) (st : TemporalState) : ℚ :=
  calculate_mad (profileList (detectSmoothed frame st))

/-- detect_tyre from test_mlx_with_detection.c, returning the TyreData (whose
fields left untouched by the C function keep the caller's memset zeros, as in
the main loop) together with the updated temporal state. -/
def detect_tyre (frame : ℕ → ℕ → ℚ) (st : TemporalState) : TyreData × TemporalState :=
  let st1 := (apply_ema (filteredProfile frame) st).2
  let smoothed := detectSmoothed frame st
  let median_temp := calculate_median (profileList smoothed)
  let mad_global := madGlobalOf frame st
  if mad_global < mad_uniform_threshold then
    let third : ℤ := 32 / 3
    ({ zeroTyre with
        detected := false
        left := calculate_zone_stats frame 0 (third - 1)
        centre := calculate_zone_stats frame third (2 * third - 1)
        right := calculate_zone_stats frame (2 * third) 31
        tyre_width := 0
        confidence := 0
        lateral_gradient := 0 }, st1)
  else
    let g := grow_region smoothed median_temp mad_global
    let p1 := apply_geometry_constraints (g.1 : ℤ) (g.2 : ℤ)
    let p2 := apply_temporal_constraints p1.1 p1.2 st1
    let p3 := apply_persistence p2.1 p2.2 st1
    (analyze_tyre frame smoothed p3.1.1 p3.1.2, p3.2)

/- Early algorithm variant: thermal_algorithm.c. -/

/-- Zone average of analyze_zone in thermal_algorithm.c: clamp the zone to
the sensor, return 0 for an empty or oversized zone, else the mean of the
profile values. -/
def analyze_zone_avg (profile : ℕ → ℚ) (s e : ℤ) : ℚ :=
  let s' := if s < 0 then 0 else s
  let e' := if 32 ≤ e then 31 else e
  let len := e' - s' + 1
  if len ≤ 0 ∨ 32 < len then 0
  else (((List.range' s'.toNat len.toNat).map profile).sum) / (len : ℚ)

/-- Lateral gradient of thermal_algorithm_process (the early variant): the
signed difference right-zone average minus left-zone average over the zone
split of the detected span. -/
def earlyGradient (profile : ℕ → ℚ) (s e : ℤ) : ℚ :=
  let w := e - s + 1
  let third := Int.tdiv w 3
  let left_end := s + third - 1
  let centre_end := e - third
  let right_start := centre_end + 1
  analyze_zone_avg profile right_start e - analyze_zone_avg profile s left_end

/- Output boundary: communication.c and i2c_slave.c.  Float values at the
boundary may be non-finite, so they are modelled by FVal: an exact rational
or one of the three non-finite classes. -/

/-- A C float at the output boundary: finite (exact rational) or non-finite. -/
inductive FVal where
  | finite (q : ℚ)
  | nan
  | inf
  | ninf
deriving DecidableEq

/-- isfinite from math.h on the FVal model. -/
def FVal.isfinite : FVal → Bool
  | FVal.finite _ => true
  | _ => false

/-- sanitize_float from communication.c: replace any non-finite value by 0. -/
def sanitize_float (v : FVal) : FVal :=
  if v.isfinite then v else FVal.finite 0

/-- Multiplication of a boundary float by a positive rational constant
(used with 10 and 100); non-finite classes propagate. -/
def fvalMulConst (v : FVal) (c : ℚ) : FVal :=
  match v with
  | FVal.finite q => FVal.finite (q * c)
  | FVal.nan => FVal.nan
  | FVal.inf => FVal.inf
  | FVal.ninf => FVal.ninf

/-- temp_to_int16_tenths from i2c_slave.c: non-finite input yields 0; a
finite input is scaled by 10 and converted to int16 (none models the
undefined out-of-range conversion). -/
def temp_to_int16_tenths (v : FVal) : Option ℤ :=
  match v with
  | FVal.finite q =>
    let t := truncQ (q * 10)
    if -32768 ≤ t ∧ t ≤ 32767 then some t else none
  | _ => some 0

/-- C conversion of a float to uint8_t: truncation when the truncated value
is representable; none models the undefined conversion of a non-finite or
out-of-range value. -/
def castUInt8 (v : FVal) : Option ℤ :=
  match v with
  | FVal.finite q =>
    let t := truncQ q
    if 0 ≤ t ∧ t ≤ 255 then some t else none
  | _ => none

/-- The float-valued fields of the compact CSV record emitted by
send_serial_compact. -/
structure SerialCompact where
  fps : FVal
  lAvg : FVal
  lMed : FVal
  cAvg : FVal
  cMed : FVal
  rAvg : FVal
  rMed : FVal
  conf : FVal
deriving DecidableEq

/-- send_serial_compact from communication.c, restricted to its float-valued
fields: each one passes through sanitize_float before being printed. -/
def send_serial_compact (fps lAvg lMed cAvg cMed rAvg rMed conf : FVal) : SerialCompact :=
  { fps := sanitize_float fps
    lAvg := sanitize_float lAvg
    lMed := sanitize_float lMed
    cAvg := sanitize_float cAvg
    cMed := sanitize_float cMed
    rAvg := sanitize_float rAvg
    rMed := sanitize_float rMed
    conf := sanitize_float conf }

/-- send_serial_json from communication.c, as the transformation applied to
every float value it prints: each passes through sanitize_float. -/
def send_serial_json_values (vals : List FVal) : List FVal := vals.map sanitize_float

/-- The register-map entries written by i2c_slave_update that derive from
float inputs. -/
structure I2CRegs where
  regFps : Option ℤ
  regConfidence : Option ℤ
  regLeftMed : Option ℤ
  regCentreMed : Option ℤ
  regRightMed : Option ℤ
  regLeftAvg : Option ℤ
  regCentreAvg : Option ℤ
  regRightAvg : Option ℤ
  regLatGrad : Option ℤ
deriving DecidableEq

/-- i2c_slave_update from i2c_slave.c, restricted to its float-derived
register writes, in the default configuration (fallback mode off).  The
temperature and gradient registers go through temp_to_int16_tenths; the fps
and confidence registers are direct uint8_t casts of the raw float. -/
def i2c_slave_update (lAvg lMed cAvg cMed rAvg rMed latGrad conf fps : FVal) : I2CRegs :=
  { regFps := castUInt8 fps
    regConfidence := castUInt8 (fvalMulConst conf 100)
    regLeftMed := temp_to_int16_tenths lMed
    regCentreMed := temp_to_int16_tenths cMed
    regRightMed := temp_to_int16_tenths rMed
    regLeftAvg := temp_to_int16_tenths lAvg
    regCentreAvg := temp_to_int16_tenths cAvg
    regRightAvg := temp_to_int16_tenths rAvg
    regLatGrad := temp_to_int16_tenths latGrad }

/- Claim-side reference definitions and concrete inputs used by the
theorems below. -/

/-- The columns actually scanned by one direction of grow_region, written
directly from the specified failure-counter policy: a failing column
increments the counter, a successful column resets it, and the scan ends
with the column on which the counter first exceeds maxFail. -/
def scanCols (ok : ℕ → Bool) (maxFail : ℕ) : List ℕ → ℕ → List ℕ
  | [], _ => []
  | i :: rest, failCount =>
    if ok i then i :: scanCols ok maxFail rest 0
    else if maxFail < failCount + 1 then [i]
    else i :: scanCols ok maxFail rest (failCount + 1)

/-- Last element of a list, or the default for an empty list. -/
def lastD : List ℕ → ℕ → ℕ
  | [], d => d
  | x :: xs, _ => lastD xs x

/-- A span with both edges inside the sensor and a positive width. -/
abbrev validSpan (p : ℤ × ℤ) : Prop := 0 ≤ p.1 ∧ p.1 ≤ p.2 ∧ p.2 ≤ 31

/-- Every stored history entry is a valid span. -/
abbrev stateInv (st : TemporalState) : Prop :=
  (1 ≤ st.prev_detection_count → validSpan st.prev0) ∧
  (2 ≤ st.prev_detection_count → validSpan st.prev1)

/-- Feeding the same span n times through apply_persistence, starting from
st; the value is the n-th returned span together with the state after n
calls. -/
def feedN (l r : ℤ) (st : TemporalState) : ℕ → (ℤ × ℤ) × TemporalState
  | 0 => ((l, r), st)
  | n + 1 => apply_persistence l r (feedN l r st n).2

/-- The steady state of apply_persistence under a constant span. -/
def persistedState (l r : ℤ) : TemporalState :=
  { prev_profile := fun _ => 0
    has_previous := false
    prev0 := (l, r)
    prev1 := (l, r)
    prev_detection_count := 2 }

/-- A spatially uniform frame at 20 degrees. -/
def uniformFrame20 : ℕ → ℕ → ℚ := fun _ _ => 20

/-- A strictly decreasing profile, 30 at column 0 down to -1 at column 31. -/
def pDec : ℕ → ℚ := fun i => 30 - (i : ℚ)

/-- A temporal state holding one stored detection (0, 9). -/
def stC3A : TemporalState :=
  { prev_profile := fun _ => 0
    has_previous := true
    prev0 := (0, 9)
    prev1 := (0, 0)
    prev_detection_count := 1 }

/-- A temporal state holding one stored detection (0, 29). -/
def stC3B : TemporalState :=
  { prev_profile := fun _ => 0
    has_previous := true
    prev0 := (0, 29)
    prev1 := (0, 0)
    prev_detection_count := 1 }

/- Helper lemmas. -/

theorem truncQ_floor (q : ℚ) (h : 0 ≤ q) : truncQ q = ⌊q⌋ := if_pos h

theorem ratFloor_eq (q : ℚ) : q.floor = ⌊q⌋ := rfl

theorem truncQ_intCast (z : ℤ) : truncQ (z : ℚ) = z := by
  unfold truncQ
  split_ifs
  · rw [ratFloor_eq]
    exact Int.floor_intCast z
  · rw [ratFloor_eq]
    have h2 : (-(z : ℚ)) = ((-z : ℤ) : ℚ) := by push_cast; ring
    rw [h2, Int.floor_intCast]
    ring

theorem calc_median_single (a : ℚ) : calculate_median [a] = a := by
  simp [calculate_median, sortQ, insertSorted]

theorem sortQ_pair (a b : ℚ) : sortQ [a, b] = if a ≤ b then [a, b] else [b, a] := by
  simp only [sortQ, insertSorted]

theorem calc_median_pair (a b : ℚ) : calculate_median [a, b] = (a + b) / 2 := by
  unfold calculate_median
  rw [sortQ_pair]
  norm_num
  split_ifs with h
  · simp [List.getD]
  · simp [List.getD]
    ring

theorem lastD_mem : ∀ (l : List ℕ) (d : ℕ), lastD l d = d ∨ lastD l d ∈ l
  | [], _ => Or.inl rfl
  | x :: xs, d => by
    rcases lastD_mem xs x with h | h
    · exact Or.inr (by simp [lastD, h])
    · simp only [lastD]
      exact Or.inr (List.mem_cons_of_mem x h)

theorem growLoop_eq_lastD (ok : ℕ → Bool) (mf : ℕ) :
    ∀ (cols : List ℕ) (b fc : ℕ),
      growLoop ok mf cols b fc = lastD ((scanCols ok mf cols fc).filter ok) b
  | [], _, _ => rfl
  | i :: rest, b, fc => by
    by_cases h : ok i
    · simp only [growLoop, scanCols, h, if_pos, List.filter_cons_of_pos]
      rw [growLoop_eq_lastD ok mf rest i 0]
      rfl
    · by_cases hs : mf < fc + 1
      · simp only [growLoop, scanCols, h, hs, if_neg, if_pos, Bool.false_eq_true,
          not_false_eq_true, List.filter_cons_of_neg, List.filter_nil]
        rfl
      · simp only [growLoop, scanCols, h, hs, if_neg, Bool.false_eq_true, not_false_eq_true,
          List.filter_cons_of_neg]
        exact growLoop_eq_lastD ok mf rest b (fc + 1)

theorem growLoop_result (ok : ℕ → Bool) (mf : ℕ) :
    ∀ (cols : List ℕ) (b fc : ℕ),
      growLoop ok mf cols b fc = b ∨
        (growLoop ok mf cols b fc ∈ cols ∧ ok (growLoop ok mf cols b fc) = true)
  | [], _, _ => Or.inl rfl
  | i :: rest, b, fc => by
    by_cases h : ok i
    · simp only [growLoop, h, if_pos]
      rcases growLoop_result ok mf rest i 0 with h1 | h1
      · exact Or.inr ⟨by rw [h1]; exact List.mem_cons_self i rest, by rw [h1]; exact h⟩
      · exact Or.inr ⟨List.mem_cons_of_mem i h1.1, h1.2⟩
    · by_cases hs : mf < fc + 1
      · simp only [growLoop, h, hs, if_neg, if_pos, Bool.false_eq_true, not_false_eq_true]
        exact Or.inl trivial
      · simp only [growLoop, h, hs, if_neg, Bool.false_eq_true, not_false_eq_true]
        rcases growLoop_result ok mf rest b (fc + 1) with h1 | h1
        · exact Or.inl h1
        · exact Or.inr ⟨List.mem_cons_of_mem i h1.1, h1.2⟩

theorem foldl_min_le (l : List ℚ) : ∀ a : ℚ, l.foldl min a ≤ a := by
  induction l with
  | nil => intro a; exact le_refl a
  | cons h t ih =>
    intro a
    calc (h :: t).foldl min a = t.foldl min (min a h) := rfl
    _ ≤ min a h := ih (min a h)
    _ ≤ a := min_le_left a h

theorem le_foldl_max (l : List ℚ) : ∀ a : ℚ, a ≤ l.foldl max a := by
  induction l with
  | nil => intro a; exact le_refl a
  | cons h t ih =>
    intro a
    calc a ≤ max a h := le_max_left a h
    _ ≤ t.foldl max (max a h) := ih (max a h)
    _ = (h :: t).foldl max a := rfl

theorem lateralGradient_nonneg (p : ℕ → ℚ) (l r : ℕ) : 0 ≤ lateralGradient p l r := by
  unfold lateralGradient
  refine sub_nonneg.2 (le_trans (foldl_min_le _ _) (le_foldl_max _ _))

/- Claim theorems. -/

/-- C2: in each growth direction of grow_region, a column extends the span
exactly when it satisfies the dual criteria encoded in growOk (within k of
the seed's value, or past the global contrast threshold selected by the
inverted flag); the failure counter (transcribed in scanCols) increments on
each failing column, resets on each success, and ends the scan once it
exceeds max_fail_count; the returned boundary is the last successful column
of the scanned columns — the seed if none succeeded and never a failing
column. -/
theorem grow_region_boundary_spec (profile : ℕ → ℚ) (median_temp mad_global : ℚ) :
    (grow_region profile median_temp mad_global).1 =
      lastD (((scanCols (growOk profile median_temp mad_global) max_fail_count leftCols 0)).filter
        (growOk profile median_temp mad_global)) centre_col
    ∧ (grow_region profile median_temp mad_global).2 =
      lastD (((scanCols (growOk profile median_temp mad_global) max_fail_count rightCols 0)).filter
        (growOk profile median_temp mad_global)) centre_col
    ∧ ((grow_region profile median_temp mad_global).1 = centre_col ∨
        ((grow_region profile median_temp mad_global).1 ∈ leftCols ∧
         growOk profile median_temp mad_global (grow_region profile median_temp mad_global).1 = true))
    ∧ ((grow_region profile median_temp mad_global).2 = centre_col ∨
        ((grow_region profile median_temp mad_global).2 ∈ rightCols ∧
         growOk profile median_temp mad_global (grow_region profile median_temp mad_global).2 = true)) := by
  refine ⟨?_, ?_, ?_, ?_⟩
  · exact growLoop_eq_lastD _ _ leftCols centre_col 0
  · exact growLoop_eq_lastD _ _ rightCols centre_col 0
  · exact growLoop_result _ _ leftCols centre_col 0
  · exact growLoop_result _ _ rightCols centre_col 0

/-- C4: apply_ema overwrites prev_profile with its output and sets
has_previous on every call; after the first frame the output is the
exponential moving average with coefficient ema_alpha, and on the very first
invocation the output equals the current profile. -/
theorem apply_ema_spec (current : ℕ → ℚ) (st : TemporalState) :
    (apply_ema current st).2.prev_profile = (apply_ema current st).1
    ∧ (apply_ema current st).2.has_previous = true
    ∧ (apply_ema current st).1 =
        (if st.has_previous then
          (fun i => ema_alpha * current i + (1 - ema_alpha) * st.prev_profile i)
         else current) := by
  unfold apply_ema
  by_cases h : st.has_previous <;> simp [h]

/-- C6: the geometry clamp leaves unchanged any span already inside the
sensor whose width lies within [min_tyre_width, max_tyre_width]. -/
theorem geometry_clamp_idempotent (l r : ℤ) (h0 : 0 ≤ l) (h31 : r ≤ 31)
    (hmin : min_tyre_width ≤ r - l + 1) (hmax : r - l + 1 ≤ max_tyre_width) :
    apply_geometry_constraints l r = (l, r) := by
  unfold apply_geometry_constraints
  dsimp only
  rw [if_neg (not_lt.2 hmin), if_neg (not_lt.2 hmax)]
  simp only [Prod.mk.injEq]
  constructor <;> omega

/-- Witness for C6 at the concrete span (5, 15). -/
theorem geometry_clamp_idempotent_witness :
    (0 : ℤ) ≤ 5 ∧ (15 : ℤ) ≤ 31 ∧ min_tyre_width ≤ 15 - 5 + 1 ∧ 15 - 5 + 1 ≤ max_tyre_width
    ∧ apply_geometry_constraints 5 15 = (5, 15) :=
  ⟨by with_unfolding_all decide, by with_unfolding_all decide, by with_unfolding_all decide,
   by with_unfolding_all decide,
   geometry_clamp_idempotent 5 15 (by with_unfolding_all decide) (by with_unfolding_all decide)
     (by with_unfolding_all decide) (by with_unfolding_all decide)⟩

/-- C8: the two historical variants compute the lateral gradient differently:
the early variant (earlyGradient, thermal_algorithm.c) takes the signed
difference of the outer and inner zone averages, the later variant
(lateralGradient, analyze_tyre) the unsigned range of the smoothed profile
over the span.  The two functions disagree on a concrete profile, the later
one is non-negative for every profile and span, and the early one is
negative on a concrete profile. -/
theorem gradient_variants_differ :
    (∃ (p : ℕ → ℚ) (l r : ℕ), earlyGradient p (l : ℤ) (r : ℤ) ≠ lateralGradient p l r)
    ∧ (∀ (p : ℕ → ℚ) (l r : ℕ), 0 ≤ lateralGradient p l r)
    ∧ (∃ (p : ℕ → ℚ) (l r : ℕ), earlyGradient p (l : ℤ) (r : ℤ) < 0) := by
  refine ⟨⟨pDec, 10, 19, ?_⟩, fun p l r => lateralGradient_nonneg p l r, ⟨pDec, 10, 19, ?_⟩⟩
  · show earlyGradient pDec 10 19 ≠ lateralGradient pDec 10 19
    with_unfolding_all decide
  · show earlyGradient pDec 10 19 < 0
    with_unfolding_all decide

theorem removeHotAux_cons (prev : Option ℚ) (x : ℚ) (rest : List ℚ) :
    ∃ v w : ℚ, removeHotAux prev (x :: rest) = v :: removeHotAux (some w) rest := by
  rw [removeHotAux]
  split_ifs with hx
  · exact ⟨_, _, rfl⟩
  · exact ⟨x, x, rfl⟩

theorem removeHotAux_not_hot :
    ∀ (row : List ℚ) (prev : Option ℚ) (i : ℕ),
      row.getD i 0 ≤ brake_temp_threshold →
      (removeHotAux prev row).getD i 0 = row.getD i 0
  | [], _, _ => by intro _; rfl
  | x :: rest, prev, 0 => by
    intro h
    simp only [List.getD_cons_zero] at h
    rw [removeHotAux, if_neg (not_lt.2 h)]
    rfl
  | x :: rest, prev, i + 1 => by
    intro h
    simp only [List.getD_cons_succ] at h
    obtain ⟨v, w, hvw⟩ := removeHotAux_cons prev x rest
    rw [hvw]
    simp only [List.getD_cons_succ]
    exact removeHotAux_not_hot rest (some w) i h

theorem removeHotAux_interior :
    ∀ (row : List ℚ) (prev : Option ℚ) (i : ℕ),
      1 ≤ i → i + 1 < row.length →
      row.getD (i - 1) 0 ≤ brake_temp_threshold →
      brake_temp_threshold < row.getD i 0 →
      row.getD (i + 1) 0 ≤ brake_temp_threshold →
      (removeHotAux prev row).getD i 0 = (row.getD (i - 1) 0 + row.getD (i + 1) 0) / 2
  | [], _, i => by
    intro _ h2 _ _ _
    simp at h2
  | x :: rest, prev, 0 => by
    intro h1 _ _ _ _
    omega
  | x :: rest, prev, 1 => by
    intro _ h2 hl hm hr
    rcases rest with _ | ⟨y, _ | ⟨z, rest2⟩⟩
    · simp at h2
    · simp at h2
    · simp only [show (1 : ℕ) - 1 = 0 from rfl, show (1 : ℕ) + 1 = 2 from rfl,
        List.getD_cons_zero, List.getD_cons_succ] at hl hm hr ⊢
      rw [removeHotAux, if_neg (not_lt.2 hl)]
      simp only [List.getD_cons_succ]
      rw [removeHotAux, if_pos hm]
      simp only [prevNeighbor, nextNeighbor, List.cons_append, List.nil_append,
        List.length_cons, List.length_nil]
      rw [if_pos (by norm_num)]
      simp only [List.getD_cons_zero]
      exact calc_median_pair x z
  | x :: rest, prev, i + 2 => by
    intro _ h2 hl hm hr
    obtain ⟨v, w, hvw⟩ := removeHotAux_cons prev x rest
    rw [hvw]
    simp only [List.getD_cons_succ] at hl hm hr ⊢
    have h2' : (i + 1) + 1 < rest.length := by
      simp only [List.length_cons] at h2
      omega
    exact removeHotAux_interior rest (some w) (i + 1) (by omega) h2' hl hm hr

theorem removeHotAux_right_edge :
    ∀ (rest : List ℚ) (prev : Option ℚ) (y x : ℚ),
      y ≤ brake_temp_threshold → brake_temp_threshold < x →
      (removeHotAux prev (rest ++ [y, x])).getD (rest.length + 1) 0 = y
  | [], prev, y, x => by
    intro hy hx
    simp only [List.nil_append, List.length_nil]
    rw [removeHotAux, if_neg (not_lt.2 hy)]
    simp only [List.getD_cons_succ]
    rw [removeHotAux, if_pos hx]
    simp only [prevNeighbor, nextNeighbor, List.append_nil, List.length_cons,
      List.length_nil]
    rw [if_pos (by norm_num)]
    simp only [List.getD_cons_zero]
    exact calc_median_single y
  | a :: rest, prev, y, x => by
    intro hy hx
    simp only [List.cons_append, List.length_cons]
    obtain ⟨v, w, hvw⟩ := removeHotAux_cons prev a (rest ++ [y, x])
    rw [hvw]
    simp only [List.getD_cons_succ]
    exact removeHotAux_right_edge rest (some w) y x hy hx

/-- C7: hot-pixel removal on a middle-band row.  A pixel above the
brake-temperature threshold with two below-threshold neighbours is replaced
by exactly the 2-element median (the mean) of its two original neighbours; a
hot pixel at the left row boundary is replaced by its single available
neighbour, and a hot pixel at the right row boundary (the last position)
with a below-threshold left neighbour is replaced by that single available
neighbour; and every pixel not exceeding the threshold is left unchanged. -/
theorem remove_hot_pixels_spec :
    (∀ (row : List ℚ) (i : ℕ), 1 ≤ i → i + 1 < row.length →
       row.getD (i - 1) 0 ≤ brake_temp_threshold →
       brake_temp_threshold < row.getD i 0 →
       row.getD (i + 1) 0 ≤ brake_temp_threshold →
       (remove_hot_pixels row).getD i 0 = (row.getD (i - 1) 0 + row.getD (i + 1) 0) / 2)
    ∧ (∀ (x y : ℚ) (rest : List ℚ), brake_temp_threshold < x →
       (remove_hot_pixels (x :: y :: rest)).getD 0 0 = y)
    ∧ (∀ (rest : List ℚ) (y x : ℚ), y ≤ brake_temp_threshold →
       brake_temp_threshold < x →
       (remove_hot_pixels (rest ++ [y, x])).getD (rest.length + 1) 0 = y)
    ∧ (∀ (row : List ℚ) (i : ℕ), row.getD i 0 ≤ brake_temp_threshold →
       (remove_hot_pixels row).getD i 0 = row.getD i 0) := by
  refine ⟨?_, ?_, ?_, ?_⟩
  · intro row i h1 h2 hl hm hr
    exact removeHotAux_interior row none i h1 h2 hl hm hr
  · intro x y rest hx
    unfold remove_hot_pixels
    rw [removeHotAux, if_pos hx]
    simp only [prevNeighbor, nextNeighbor, List.nil_append, List.length_cons, List.length_nil]
    rw [if_pos (by norm_num)]
    simp only [List.getD_cons_zero]
    exact calc_median_single y
  · intro rest y x hy hx
    exact removeHotAux_right_edge rest none y x hy hx
  · intro row i h
    exact removeHotAux_not_hot row none i h

/-- Witness for C7: interior replacement on [1, 200, 3], left-boundary
replacement on [200, 3], right-boundary replacement on [1, 3, 200], and
preservation of the cool pixel at index 0 of [1, 200, 3]. -/
theorem remove_hot_pixels_spec_witness :
    (remove_hot_pixels [1, 200, 3]).getD 1 0 =
      (([1, 200, 3] : List ℚ).getD 0 0 + ([1, 200, 3] : List ℚ).getD 2 0) / 2
    ∧ (remove_hot_pixels [200, 3]).getD 0 0 = 3
    ∧ (remove_hot_pixels ([1] ++ [3, 200])).getD ([(1 : ℚ)].length + 1) 0 = 3
    ∧ (remove_hot_pixels [1, 200, 3]).getD 0 0 = ([1, 200, 3] : List ℚ).getD 0 0 :=
  ⟨remove_hot_pixels_spec.1 [1, 200, 3] 1 (by norm_num) (by norm_num)
      (by with_unfolding_all decide) (by with_unfolding_all decide)
      (by with_unfolding_all decide),
   remove_hot_pixels_spec.2.1 200 3 [] (by with_unfolding_all decide),
   remove_hot_pixels_spec.2.2.1 [1] 3 200 (by with_unfolding_all decide)
     (by with_unfolding_all decide),
   remove_hot_pixels_spec.2.2.2 [1, 200, 3] 0 (by with_unfolding_all decide)⟩

theorem persistence_fixpoint (l r : ℤ) :
    apply_persistence l r (persistedState l r) = ((l, r), persistedState l r) := by
  unfold apply_persistence persistedState persistence_frames
  rw [if_neg (by norm_num)]
  dsimp only
  have hl : ((l : ℚ) * 1 + (l : ℚ) * 4 + (l : ℚ) * 9) / 14 = ((l : ℤ) : ℚ) := by ring
  have hr : ((r : ℚ) * 1 + (r : ℚ) * 4 + (r : ℚ) * 9) / 14 = ((r : ℤ) : ℚ) := by ring
  rw [hl, hr, truncQ_intCast, truncQ_intCast]

theorem persistence_state_conv (l r : ℤ) :
    ∀ n : ℕ, 2 ≤ n → (feedN l r initTemporalState n).2 = persistedState l r := by
  intro n
  induction n with
  | zero => omega
  | succ m ih =>
    intro hn
    rcases Nat.lt_or_ge m 2 with hm | hm
    · have hm1 : m = 1 := by omega
      subst hm1
      show (apply_persistence l r (feedN l r initTemporalState 1).2).2 = persistedState l r
      rfl
    · show (apply_persistence l r (feedN l r initTemporalState m).2).2 = persistedState l r
      rw [ih hm, persistence_fixpoint]

/-- C5: feeding N identical integer spans, N at least persistence_frames + 1,
through apply_persistence starting from the reset state yields the input
span: the quadratic weighted average (weights 1, 4 and 9 for the current
span) of identical spans, normalised by 14 and truncated, is the span
itself. -/
theorem persistence_identity (l r : ℤ) (N : ℕ) (hN : persistence_frames + 1 ≤ N) :
    (feedN l r initTemporalState N).1 = (l, r) := by
  rcases N with _ | m
  · exact absurd hN (by unfold persistence_frames; omega)
  · have hm : 2 ≤ m := by
      unfold persistence_frames at hN
      omega
    show (apply_persistence l r (feedN l r initTemporalState m).2).1 = (l, r)
    rw [persistence_state_conv l r m hm, persistence_fixpoint]

/-- Witness for C5 at span (10, 20) and N = 3. -/
theorem persistence_identity_witness :
    persistence_frames + 1 ≤ 3 ∧ (feedN 10 20 initTemporalState 3).1 = (10, 20) :=
  ⟨by with_unfolding_all decide,
   persistence_identity 10 20 3 (by with_unfolding_all decide)⟩

/-- C1 counterexample: on the uniform 20-degree frame from the reset state
the pipeline takes the no-detection branch, but the reported span keeps the
caller's zeroed fields (0, 0) with width 0 — it does not cover the full
sensor width — and the right no-detection zone is computed over columns
20 to 31 (12 columns), so the three zones are not equal thirds. -/
theorem uniform_frame_counterexample :
    madGlobalOf uniformFrame20 initTemporalState < mad_uniform_threshold
    ∧ (detect_tyre uniformFrame20 initTemporalState).1.detected = false
    ∧ (detect_tyre uniformFrame20 initTemporalState).1.span_start = 0
    ∧ (detect_tyre uniformFrame20 initTemporalState).1.span_end = 0
    ∧ (detect_tyre uniformFrame20 initTemporalState).1.tyre_width = 0
    ∧ ((detect_tyre uniformFrame20 initTemporalState).1.span_end -
        (detect_tyre uniformFrame20 initTemporalState).1.span_start + 1 ≠ 32)
    ∧ (detect_tyre uniformFrame20 initTemporalState).1.right =
        calculate_zone_stats uniformFrame20 20 31
    ∧ ((31 : ℤ) - 20 + 1 ≠ 9 - 0 + 1) := by
  with_unfolding_all decide

/-- C1 (amended): for every frame whose smoothed profile has
mad_global below mad_uniform_threshold, detect_tyre takes the terminal
no-detection branch: detected is false, confidence, lateral gradient and
tyre_width are 0, the span fields keep their caller-initialised zeros (they
are not set to the full sensor width), and the zone statistics are computed
from the three contiguous blocks [0, 9], [10, 19] and [20, 31] of the full
sensor width — the first two of 10 columns, the right one absorbing the
division remainder with 12 columns. -/
theorem uniform_frame_no_detection (frame : ℕ → ℕ → ℚ) (st : TemporalState)
    (h : madGlobalOf frame st < mad_uniform_threshold) :
    (detect_tyre frame st).1 =
      { left := calculate_zone_stats frame 0 9
        centre := calculate_zone_stats frame 10 19
        right := calculate_zone_stats frame 20 31
        detected := false
        span_start := 0
        span_end := 0
        tyre_width := 0
        confidence := 0
        lateral_gradient := 0 } := by
  unfold detect_tyre
  dsimp only
  rw [if_pos h]
  norm_num
  exact ⟨rfl, rfl⟩

/-- Witness for the amended C1 on the uniform 20-degree frame. -/
theorem uniform_frame_no_detection_witness :
    madGlobalOf uniformFrame20 initTemporalState < mad_uniform_threshold
    ∧ (detect_tyre uniformFrame20 initTemporalState).1 =
      { left := calculate_zone_stats uniformFrame20 0 9
        centre := calculate_zone_stats uniformFrame20 10 19
        right := calculate_zone_stats uniformFrame20 20 31
        detected := false
        span_start := 0
        span_end := 0
        tyre_width := 0
        confidence := 0
        lateral_gradient := 0 } :=
  ⟨by with_unfolding_all decide,
   uniform_frame_no_detection uniformFrame20 initTemporalState (by with_unfolding_all decide)⟩

/-- C3 counterexample.  First instance: with one stored detection (0, 9)
(prev_width 10) and current span (6, 25), the clamp returns (9, 22), of width
14, and |14 - 10| = 4 exceeds 10 * max_width_change_ratio = 3: the stated
bound fails because the target width and half-adjustment are truncated to
integers.  Second instance: with one stored detection (0, 29) (prev_width
30) and current span (0, 4), the expansion runs into the left sensor edge
and the final clamp yields (0, 12), of width 13, and |13 - 30| = 17 exceeds
even 30 * max_width_change_ratio + 2 = 11. -/
theorem temporal_clamp_counterexample :
    (stC3A.prev_detection_count = 1 ∧ stC3A.prev0 = (0, 9)
      ∧ apply_temporal_constraints 6 25 stC3A = (9, 22)
      ∧ ¬(|(14 : ℚ) - 10| ≤ 10 * max_width_change_ratio))
    ∧ (stC3B.prev_detection_count = 1 ∧ stC3B.prev0 = (0, 29)
      ∧ apply_temporal_constraints 0 4 stC3B = (0, 12)
      ∧ ¬(|(13 : ℚ) - 30| ≤ 30 * max_width_change_ratio + 2)) := by
  with_unfolding_all decide

theorem max_width_change_ratio_nonneg : (0 : ℚ) ≤ max_width_change_ratio := by
  rw [max_width_change_ratio]
  norm_num

theorem apply_temporal_core_width (l r pl pr : ℤ) (hplr : pl ≤ pr) (hlr : l ≤ r) :
    |(((apply_temporal_core l r pl pr).2 - (apply_temporal_core l r pl pr).1 + 1 : ℤ) : ℚ)
        - ((pr - pl + 1 : ℤ) : ℚ)|
      ≤ ((pr - pl + 1 : ℤ) : ℚ) * max_width_change_ratio + 2 := by
  have hp1 : (1 : ℤ) ≤ pr - pl + 1 := by omega
  have hcw1 : (1 : ℤ) ≤ r - l + 1 := by omega
  have hp1q : (1 : ℚ) ≤ ((pr - pl + 1 : ℤ) : ℚ) := by exact_mod_cast hp1
  have hcw1q : (1 : ℚ) ≤ ((r - l + 1 : ℤ) : ℚ) := by exact_mod_cast hcw1
  have hmc0 : (0 : ℚ) ≤ ((pr - pl + 1 : ℤ) : ℚ) * max_width_change_ratio := by
    have := max_width_change_ratio_nonneg
    nlinarith
  have hpmc : (0 : ℚ) ≤ ((pr - pl + 1 : ℤ) : ℚ) - ((pr - pl + 1 : ℤ) : ℚ) * max_width_change_ratio := by
    have h7 : ((pr - pl + 1 : ℤ) : ℚ) - ((pr - pl + 1 : ℤ) : ℚ) * max_width_change_ratio
        = ((pr - pl + 1 : ℤ) : ℚ) * (7/10) := by
      rw [max_width_change_ratio]
      ring
    rw [h7]
    nlinarith
  unfold apply_temporal_core
  dsimp only
  split_ifs with hB hA hA
  · -- both guards cannot hold at once
    exfalso
    linarith
  · -- width decreased too much: expansion toward the lower bound
    rw [truncQ_floor _ (by linarith)]
    have htle : ((⌊((pr - pl + 1 : ℤ) : ℚ) - ((pr - pl + 1 : ℤ) : ℚ) * max_width_change_ratio⌋ : ℤ) : ℚ)
        ≤ ((pr - pl + 1 : ℤ) : ℚ) - ((pr - pl + 1 : ℤ) : ℚ) * max_width_change_ratio :=
      Int.floor_le _
    have htgt : ((pr - pl + 1 : ℤ) : ℚ) - ((pr - pl + 1 : ℤ) : ℚ) * max_width_change_ratio
        < ((⌊((pr - pl + 1 : ℤ) : ℚ) - ((pr - pl + 1 : ℤ) : ℚ) * max_width_change_ratio⌋ : ℤ) : ℚ) + 1 :=
      Int.lt_floor_add_one _
    set t : ℤ := ⌊((pr - pl + 1 : ℤ) : ℚ) - ((pr - pl + 1 : ℤ) : ℚ) * max_width_change_ratio⌋ with ht
    have hcwt : r - l + 1 ≤ t :=
      Int.le_floor.2 (le_of_lt hB)
    have he : Int.tdiv (t - (r - l + 1)) 2 = (t - (r - l + 1)) / 2 :=
      Int.tdiv_eq_ediv (by omega) (by omega)
    rw [he]
    have hw : t - 1 ≤ r + (t - (r - l + 1)) / 2 - (l - (t - (r - l + 1)) / 2) + 1
        ∧ r + (t - (r - l + 1)) / 2 - (l - (t - (r - l + 1)) / 2) + 1 ≤ t := by
      omega
    have hw1 : ((t : ℚ)) - 1 ≤
        ((r + (t - (r - l + 1)) / 2 - (l - (t - (r - l + 1)) / 2) + 1 : ℤ) : ℚ) := by
      exact_mod_cast hw.1
    have hw2 : ((r + (t - (r - l + 1)) / 2 - (l - (t - (r - l + 1)) / 2) + 1 : ℤ) : ℚ)
        ≤ (t : ℚ) := by
      exact_mod_cast hw.2
    rw [abs_le]
    constructor <;> linarith
  · -- width increased too much: shrink toward the upper bound
    rw [truncQ_floor _ (by linarith)]
    have htle : ((⌊((pr - pl + 1 : ℤ) : ℚ) + ((pr - pl + 1 : ℤ) : ℚ) * max_width_change_ratio⌋ : ℤ) : ℚ)
        ≤ ((pr - pl + 1 : ℤ) : ℚ) + ((pr - pl + 1 : ℤ) : ℚ) * max_width_change_ratio :=
      Int.floor_le _
    set t : ℤ := ⌊((pr - pl + 1 : ℤ) : ℚ) + ((pr - pl + 1 : ℤ) : ℚ) * max_width_change_ratio⌋ with ht
    have htp : pr - pl + 1 ≤ t :=
      Int.le_floor.2 (by linarith)
    have htcw : t ≤ r - l + 1 := by
      have hq : (t : ℚ) < ((r - l + 1 : ℤ) : ℚ) := lt_of_le_of_lt htle hA
      exact_mod_cast le_of_lt hq
    have he : Int.tdiv ((r - l + 1) - t) 2 = ((r - l + 1) - t) / 2 :=
      Int.tdiv_eq_ediv (by omega) (by omega)
    rw [he]
    have hw : t ≤ r - ((r - l + 1) - t) / 2 - (l + ((r - l + 1) - t) / 2) + 1
        ∧ r - ((r - l + 1) - t) / 2 - (l + ((r - l + 1) - t) / 2) + 1 ≤ t + 1 := by
      omega
    have hw1 : (t : ℚ) ≤
        ((r - ((r - l + 1) - t) / 2 - (l + ((r - l + 1) - t) / 2) + 1 : ℤ) : ℚ) := by
      exact_mod_cast hw.1
    have hw2 : ((r - ((r - l + 1) - t) / 2 - (l + ((r - l + 1) - t) / 2) + 1 : ℤ) : ℚ)
        ≤ (t : ℚ) + 1 := by
      exact_mod_cast hw.2
    have htpq : ((pr - pl + 1 : ℤ) : ℚ) ≤ (t : ℚ) := by
      exact_mod_cast htp
    rw [abs_le]
    constructor <;> linarith
  · -- neither guard fired: the width is already within the bound
    rw [abs_le]
    constructor <;> linarith

/-- C3 (amended): the temporal-continuity clamp compares the current width
against the span stored in history slot 0 (the older of the two stored
detections).  Writing prev_width for that span's width, whenever the
history is non-empty and the final [0, 31] edge clamp leaves the adjusted
span unchanged, the clamped width satisfies
|width(t) - prev_width| <= prev_width * max_width_change_ratio + 2.
The exact bound prev_width * max_width_change_ratio of the original claim
fails because the target width and the symmetric half-adjustment are
truncated to integers (first counterexample instance), and without the
edge-clamp proviso even the +2 slack fails (second instance). -/
theorem temporal_clamp_slack_bound (l r pl pr : ℤ) (st : TemporalState)
    (hc : st.prev_detection_count ≠ 0) (hst : st.prev0 = (pl, pr))
    (hplr : pl ≤ pr) (hlr : l ≤ r)
    (hnc1 : 0 ≤ (apply_temporal_core l r pl pr).1)
    (hnc2 : (apply_temporal_core l r pl pr).2 ≤ 31) :
    |(((apply_temporal_constraints l r st).2 - (apply_temporal_constraints l r st).1 + 1 : ℤ) : ℚ)
        - ((pr - pl + 1 : ℤ) : ℚ)|
      ≤ ((pr - pl + 1 : ℤ) : ℚ) * max_width_change_ratio + 2 := by
  have hcon : apply_temporal_constraints l r st = apply_temporal_core l r pl pr := by
    unfold apply_temporal_constraints
    rw [if_neg hc, hst]
    dsimp only
    have h1 : max (apply_temporal_core l r pl pr).1 0 = (apply_temporal_core l r pl pr).1 :=
      max_eq_left hnc1
    have h2 : min (apply_temporal_core l r pl pr).2 31 = (apply_temporal_core l r pl pr).2 :=
      min_eq_left hnc2
    rw [h1, h2]
  rw [hcon]
  exact apply_temporal_core_width l r pl pr hplr hlr

/-- Witness for the amended C3: history slot 0 holds (0, 9) and the grown
span is (6, 25); the clamp output (9, 22) of width 14 differs from
prev_width 10 by 4, within 10 * max_width_change_ratio + 2 = 5. -/
theorem temporal_clamp_slack_bound_witness :
    stC3A.prev_detection_count ≠ 0 ∧ stC3A.prev0 = (0, 9)
    ∧ (0 : ℤ) ≤ 9 ∧ (6 : ℤ) ≤ 25
    ∧ 0 ≤ (apply_temporal_core 6 25 0 9).1 ∧ (apply_temporal_core 6 25 0 9).2 ≤ 31
    ∧ |(((apply_temporal_constraints 6 25 stC3A).2 -
          (apply_temporal_constraints 6 25 stC3A).1 + 1 : ℤ) : ℚ) - ((9 - 0 + 1 : ℤ) : ℚ)|
        ≤ ((9 - 0 + 1 : ℤ) : ℚ) * max_width_change_ratio + 2 :=
  ⟨by with_unfolding_all decide, by with_unfolding_all decide, by with_unfolding_all decide,
   by with_unfolding_all decide, by with_unfolding_all decide, by with_unfolding_all decide,
   temporal_clamp_slack_bound 6 25 0 9 stC3A (by with_unfolding_all decide)
     (by with_unfolding_all decide) (by with_unfolding_all decide)
     (by with_unfolding_all decide) (by with_unfolding_all decide)
     (by with_unfolding_all decide)⟩

/-- C9: the serial CSV and JSON emitters pass every float field through
sanitize_float, and the I2C temperature and lateral-gradient registers go
through temp_to_int16_tenths, all of which turn a non-finite input into 0 —
but i2c_slave_update stores the fps and confidence registers as direct
uint8_t casts of the raw float, with no finiteness check: for a NaN input
those conversions are undefined (modelled as none) instead of the required
0, contradicting the spec's sanitisation requirement for every emitted
value. -/
theorem nonfinite_sanitization_gap :
    send_serial_compact FVal.nan FVal.nan FVal.nan FVal.nan FVal.nan FVal.nan FVal.nan FVal.nan
      = { fps := FVal.finite 0, lAvg := FVal.finite 0, lMed := FVal.finite 0
          cAvg := FVal.finite 0, cMed := FVal.finite 0, rAvg := FVal.finite 0
          rMed := FVal.finite 0, conf := FVal.finite 0 }
    ∧ send_serial_json_values [FVal.nan, FVal.inf, FVal.ninf]
      = [FVal.finite 0, FVal.finite 0, FVal.finite 0]
    ∧ (i2c_slave_update FVal.nan FVal.nan FVal.nan FVal.nan FVal.nan FVal.nan FVal.nan
        FVal.nan FVal.nan).regLeftAvg = some 0
    ∧ (i2c_slave_update FVal.nan FVal.nan FVal.nan FVal.nan FVal.nan FVal.nan FVal.nan
        FVal.nan FVal.nan).regLatGrad = some 0
    ∧ (i2c_slave_update FVal.nan FVal.nan FVal.nan FVal.nan FVal.nan FVal.nan FVal.nan
        FVal.nan FVal.nan).regFps = none
    ∧ (i2c_slave_update FVal.nan FVal.nan FVal.nan FVal.nan FVal.nan FVal.nan FVal.nan
        FVal.nan FVal.nan).regFps ≠ some 0
    ∧ (i2c_slave_update FVal.nan FVal.nan FVal.nan FVal.nan FVal.nan FVal.nan FVal.nan
        FVal.nan FVal.nan).regConfidence ≠ some 0 := by
  with_unfolding_all decide

theorem tdiv_two_eq (d : ℤ) : Int.tdiv d 2 = if 0 ≤ d then d / 2 else -((-d) / 2) := by
  split_ifs with hd
  · exact Int.tdiv_eq_ediv hd (by omega)
  · conv_lhs => rw [show d = -(-d) from (neg_neg d).symm]
    rw [Int.neg_tdiv, Int.tdiv_eq_ediv (by omega) (by omega)]

theorem grow_region_bounds (profile : ℕ → ℚ) (mt mg : ℚ) :
    (grow_region profile mt mg).1 ≤ centre_col
    ∧ centre_col ≤ (grow_region profile mt mg).2
    ∧ (grow_region profile mt mg).2 ≤ 31 := by
  unfold grow_region leftCols rightCols centre_col
  dsimp only
  refine ⟨?_, ?_, ?_⟩
  · rcases growLoop_result (growOk profile mt mg) max_fail_count (List.range 16).reverse 16 0
      with h | h
    · rw [h]
    · have := List.mem_range.1 (List.mem_reverse.1 h.1)
      omega
  · rcases growLoop_result (growOk profile mt mg) max_fail_count (List.range' (16 + 1) 15) 16 0
      with h | h
    · rw [h]
    · have := (List.mem_range'_1.1 h.1).1
      omega
  · rcases growLoop_result (growOk profile mt mg) max_fail_count (List.range' (16 + 1) 15) 16 0
      with h | h
    · rw [h]
      omega
    · have := (List.mem_range'_1.1 h.1).2
      omega

theorem apply_geometry_bounds (l r : ℤ) (h0 : 0 ≤ l) (hlr : l ≤ r) (h31 : r ≤ 31) :
    validSpan (apply_geometry_constraints l r) := by
  unfold apply_geometry_constraints validSpan
  dsimp only
  simp only [tdiv_two_eq, show min_tyre_width = 6 from rfl, show max_tyre_width = 28 from rfl]
  split_ifs <;> (refine ⟨?_, ?_, ?_⟩ <;> dsimp only <;> omega)

theorem apply_temporal_core_span (l r pl pr : ℤ) (h0 : 0 ≤ l) (hlr : l ≤ r) (h31 : r ≤ 31)
    (hplr : pl ≤ pr) :
    (apply_temporal_core l r pl pr).1 ≤ (apply_temporal_core l r pl pr).2
    ∧ (apply_temporal_core l r pl pr).1 ≤ 31
    ∧ 0 ≤ (apply_temporal_core l r pl pr).2 := by
  have hp1 : (1 : ℤ) ≤ pr - pl + 1 := by omega
  have hp1q : (1 : ℚ) ≤ ((pr - pl + 1 : ℤ) : ℚ) := by exact_mod_cast hp1
  have hmc0 : (0 : ℚ) ≤ ((pr - pl + 1 : ℤ) : ℚ) * max_width_change_ratio := by
    have := max_width_change_ratio_nonneg
    nlinarith
  have hpmc : (0 : ℚ) ≤ ((pr - pl + 1 : ℤ) : ℚ)
      - ((pr - pl + 1 : ℤ) : ℚ) * max_width_change_ratio := by
    have h7 : ((pr - pl + 1 : ℤ) : ℚ) - ((pr - pl + 1 : ℤ) : ℚ) * max_width_change_ratio
        = ((pr - pl + 1 : ℤ) : ℚ) * (7/10) := by
      rw [max_width_change_ratio]
      ring
    rw [h7]
    nlinarith
  unfold apply_temporal_core
  dsimp only
  split_ifs with hB hA hA
  · exfalso
    linarith
  · -- expansion: the span grows outward by a non-negative amount
    rw [truncQ_floor _ (by linarith)]
    set t : ℤ := ⌊((pr - pl + 1 : ℤ) : ℚ) - ((pr - pl + 1 : ℤ) : ℚ) * max_width_change_ratio⌋
      with ht
    have hcwt : r - l + 1 ≤ t := Int.le_floor.2 (le_of_lt hB)
    have he : Int.tdiv (t - (r - l + 1)) 2 = (t - (r - l + 1)) / 2 :=
      Int.tdiv_eq_ediv (by omega) (by omega)
    rw [he]
    refine ⟨?_, ?_, ?_⟩ <;> dsimp only <;> omega
  · -- shrink: the span narrows toward a still-positive target width
    rw [truncQ_floor _ (by linarith)]
    have htle : ((⌊((pr - pl + 1 : ℤ) : ℚ) + ((pr - pl + 1 : ℤ) : ℚ) * max_width_change_ratio⌋ : ℤ) : ℚ)
        ≤ ((pr - pl + 1 : ℤ) : ℚ) + ((pr - pl + 1 : ℤ) : ℚ) * max_width_change_ratio :=
      Int.floor_le _
    set t : ℤ := ⌊((pr - pl + 1 : ℤ) : ℚ) + ((pr - pl + 1 : ℤ) : ℚ) * max_width_change_ratio⌋
      with ht
    have htp : pr - pl + 1 ≤ t := Int.le_floor.2 (by linarith)
    have htcw : t ≤ r - l + 1 := by
      have hq : (t : ℚ) < ((r - l + 1 : ℤ) : ℚ) := lt_of_le_of_lt htle hA
      exact_mod_cast le_of_lt hq
    have he : Int.tdiv ((r - l + 1) - t) 2 = ((r - l + 1) - t) / 2 :=
      Int.tdiv_eq_ediv (by omega) (by omega)
    rw [he]
    refine ⟨?_, ?_, ?_⟩ <;> dsimp only <;> omega
  · exact ⟨hlr, by omega, by omega⟩

theorem apply_temporal_bounds (l r : ℤ) (st : TemporalState)
    (h0 : 0 ≤ l) (hlr : l ≤ r) (h31 : r ≤ 31)
    (hprev : st.prev_detection_count ≠ 0 → st.prev0.1 ≤ st.prev0.2) :
    validSpan (apply_temporal_constraints l r st) := by
  unfold apply_temporal_constraints
  split_ifs with hc
  · exact ⟨h0, hlr, h31⟩
  · have hple := hprev hc
    have hcore := apply_temporal_core_span l r st.prev0.1 st.prev0.2 h0 hlr h31 hple
    refine ⟨?_, ?_, ?_⟩ <;> dsimp only <;> omega

theorem apply_persistence_bounds (l r : ℤ) (st : TemporalState)
    (hv : validSpan (l, r)) (hInv : stateInv st) :
    validSpan (apply_persistence l r st).1 ∧ stateInv (apply_persistence l r st).2 := by
  obtain ⟨hv0, hv1, hv2⟩ := hv
  dsimp only at hv0 hv1 hv2
  unfold apply_persistence
  split_ifs with hc hc0
  · -- empty history: the span is stored in slot 0
    refine ⟨⟨hv0, hv1, hv2⟩, ⟨fun _ => ⟨hv0, hv1, hv2⟩, fun h => ?_⟩⟩
    dsimp only at h ⊢
    rw [hc0] at h
    omega
  · -- one stored entry: the span is stored in slot 1
    unfold persistence_frames at hc
    have hc1 : st.prev_detection_count = 1 := by omega
    refine ⟨⟨hv0, hv1, hv2⟩, ⟨fun _ => ?_, fun _ => ⟨hv0, hv1, hv2⟩⟩⟩
    exact hInv.1 (by omega)
  · -- full history: quadratically weighted average of three valid spans
    unfold persistence_frames at hc
    have hc2 : 2 ≤ st.prev_detection_count := by omega
    dsimp only
    obtain ⟨h00, h01, h02⟩ := hInv.1 (by omega)
    obtain ⟨h10, h11, h12⟩ := hInv.2 hc2
    have c00 : (0 : ℚ) ≤ (st.prev0.1 : ℚ) := by exact_mod_cast h00
    have c01 : ((st.prev0.1 : ℤ) : ℚ) ≤ (st.prev0.2 : ℚ) := by exact_mod_cast h01
    have c02 : ((st.prev0.2 : ℤ) : ℚ) ≤ 31 := by exact_mod_cast h02
    have c10 : (0 : ℚ) ≤ (st.prev1.1 : ℚ) := by exact_mod_cast h10
    have c11 : ((st.prev1.1 : ℤ) : ℚ) ≤ (st.prev1.2 : ℚ) := by exact_mod_cast h11
    have c12 : ((st.prev1.2 : ℤ) : ℚ) ≤ 31 := by exact_mod_cast h12
    have cv0 : (0 : ℚ) ≤ (l : ℚ) := by exact_mod_cast hv0
    have cv1 : ((l : ℤ) : ℚ) ≤ (r : ℚ) := by exact_mod_cast hv1
    have cv2 : ((r : ℤ) : ℚ) ≤ 31 := by exact_mod_cast hv2
    have hwl0 : (0 : ℚ) ≤
        ((st.prev0.1 : ℚ) * 1 + (st.prev1.1 : ℚ) * 4 + (l : ℚ) * 9) / 14 := by
      linarith
    have hwr0 : (0 : ℚ) ≤
        ((st.prev0.2 : ℚ) * 1 + (st.prev1.2 : ℚ) * 4 + (r : ℚ) * 9) / 14 := by
      linarith
    have hwlr : ((st.prev0.1 : ℚ) * 1 + (st.prev1.1 : ℚ) * 4 + (l : ℚ) * 9) / 14 ≤
        ((st.prev0.2 : ℚ) * 1 + (st.prev1.2 : ℚ) * 4 + (r : ℚ) * 9) / 14 := by
      linarith
    have hwr31 : ((st.prev0.2 : ℚ) * 1 + (st.prev1.2 : ℚ) * 4 + (r : ℚ) * 9) / 14
        < ((32 : ℤ) : ℚ) := by
      push_cast
      linarith
    rw [truncQ_floor _ hwl0, truncQ_floor _ hwr0]
    have hfl0 : 0 ≤ ⌊((st.prev0.1 : ℚ) * 1 + (st.prev1.1 : ℚ) * 4 + (l : ℚ) * 9) / 14⌋ :=
      Int.floor_nonneg.2 hwl0
    have hflr : ⌊((st.prev0.1 : ℚ) * 1 + (st.prev1.1 : ℚ) * 4 + (l : ℚ) * 9) / 14⌋ ≤
        ⌊((st.prev0.2 : ℚ) * 1 + (st.prev1.2 : ℚ) * 4 + (r : ℚ) * 9) / 14⌋ :=
      Int.floor_le_floor hwlr
    have hfr31 : ⌊((st.prev0.2 : ℚ) * 1 + (st.prev1.2 : ℚ) * 4 + (r : ℚ) * 9) / 14⌋ < 32 :=
      Int.floor_lt.2 hwr31
    refine ⟨⟨hfl0, hflr, by dsimp only; omega⟩,
      ⟨fun _ => ⟨h10, h11, h12⟩, fun _ => ⟨hfl0, hflr, by dsimp only; omega⟩⟩⟩

theorem apply_ema_state_fields (c : ℕ → ℚ) (st : TemporalState) :
    (apply_ema c st).2.prev0 = st.prev0
    ∧ (apply_ema c st).2.prev1 = st.prev1
    ∧ (apply_ema c st).2.prev_detection_count = st.prev_detection_count := by
  unfold apply_ema
  split_ifs <;> exact ⟨rfl, rfl, rfl⟩

/-- C10: stage-by-stage span invariants of the stabilizer.  grow_region
yields a span between column 0 and 31 around the centre column; for any
valid input span and any state whose history entries are valid spans, the
geometry clamp, the temporal-continuity clamp and persistence smoothing each
return a span with 0 <= left <= right <= 31; persistence stores only valid
spans back into the two-slot history; the full pipeline preserves the
history invariant; and every result with detected = true has
tyre_width >= 1. -/
theorem stabilizer_stage_bounds (profile : ℕ → ℚ) (mt mg : ℚ) (l r : ℤ)
    (st : TemporalState) (frame : ℕ → ℕ → ℚ)
    (h0 : 0 ≤ l) (hlr : l ≤ r) (h31 : r ≤ 31) (hInv : stateInv st) :
    ((0 : ℤ) ≤ ((grow_region profile mt mg).1 : ℤ)
      ∧ ((grow_region profile mt mg).1 : ℤ) ≤ ((grow_region profile mt mg).2 : ℤ)
      ∧ ((grow_region profile mt mg).2 : ℤ) ≤ 31)
    ∧ validSpan (apply_geometry_constraints l r)
    ∧ validSpan (apply_temporal_constraints (apply_geometry_constraints l r).1
        (apply_geometry_constraints l r).2 st)
    ∧ validSpan (apply_persistence
        (apply_temporal_constraints (apply_geometry_constraints l r).1
          (apply_geometry_constraints l r).2 st).1
        (apply_temporal_constraints (apply_geometry_constraints l r).1
          (apply_geometry_constraints l r).2 st).2 st).1
    ∧ stateInv (apply_persistence
        (apply_temporal_constraints (apply_geometry_constraints l r).1
          (apply_geometry_constraints l r).2 st).1
        (apply_temporal_constraints (apply_geometry_constraints l r).1
          (apply_geometry_constraints l r).2 st).2 st).2
    ∧ stateInv (detect_tyre frame st).2
    ∧ ((detect_tyre frame st).1.detected = true → 1 ≤ (detect_tyre frame st).1.tyre_width) := by
  have hg := grow_region_bounds profile mt mg
  have hgeo := apply_geometry_bounds l r h0 hlr h31
  have hprev : st.prev_detection_count ≠ 0 → st.prev0.1 ≤ st.prev0.2 := fun hc =>
    (hInv.1 (by omega)).2.1
  have htem := apply_temporal_bounds _ _ st hgeo.1 hgeo.2.1 hgeo.2.2 hprev
  have hper := apply_persistence_bounds _ _ st htem hInv
  have hdetect : stateInv (detect_tyre frame st).2
      ∧ ((detect_tyre frame st).1.detected = true → 1 ≤ (detect_tyre frame st).1.tyre_width) := by
    obtain ⟨e0, e1, e2⟩ := apply_ema_state_fields (filteredProfile frame) st
    have hInv1 : stateInv (apply_ema (filteredProfile frame) st).2 := by
      constructor
      · intro h
        rw [e2] at h
        rw [e0]
        exact hInv.1 h
      · intro h
        rw [e2] at h
        rw [e1]
        exact hInv.2 h
    unfold detect_tyre
    dsimp only
    split_ifs with hmad
    · exact ⟨hInv1, fun h => absurd h (by decide)⟩
    · have hg2 := grow_region_bounds (detectSmoothed frame st)
        (calculate_median (profileList (detectSmoothed frame st))) (madGlobalOf frame st)
      have hgeo2 := apply_geometry_bounds
        ((grow_region (detectSmoothed frame st)
          (calculate_median (profileList (detectSmoothed frame st)))
          (madGlobalOf frame st)).1 : ℤ)
        ((grow_region (detectSmoothed frame st)
          (calculate_median (profileList (detectSmoothed frame st)))
          (madGlobalOf frame st)).2 : ℤ)
        (Int.natCast_nonneg _) (by exact_mod_cast le_trans hg2.1 hg2.2.1)
        (by exact_mod_cast hg2.2.2)
      have hprev1 : (apply_ema (filteredProfile frame) st).2.prev_detection_count ≠ 0 →
          (apply_ema (filteredProfile frame) st).2.prev0.1 ≤
            (apply_ema (filteredProfile frame) st).2.prev0.2 := fun hc =>
        (hInv1.1 (by omega)).2.1
      have htem2 := apply_temporal_bounds _ _ (apply_ema (filteredProfile frame) st).2
        hgeo2.1 hgeo2.2.1 hgeo2.2.2 hprev1
      have hper2 := apply_persistence_bounds _ _ (apply_ema (filteredProfile frame) st).2
        htem2 hInv1
      have hwidth : ∀ (a b : ℤ), a ≤ b →
          1 ≤ (analyze_tyre frame (detectSmoothed frame st) a b).tyre_width := by
        intro a b hab
        have hw : (analyze_tyre frame (detectSmoothed frame st) a b).tyre_width = b - a + 1 :=
          rfl
        rw [hw]
        omega
      refine ⟨hper2.2, fun _ => hwidth _ _ ?_⟩
      exact hper2.1.2.1
  refine ⟨⟨Int.natCast_nonneg _, ?_, ?_⟩, hgeo, htem, hper.1, hper.2, hdetect.1, hdetect.2⟩
  · exact_mod_cast le_trans hg.1 hg.2.1
  · exact_mod_cast hg.2.2

/-- Witness for C10 at profile 0, span (10, 20), the reset state and the
uniform 20-degree frame. -/
theorem stabilizer_stage_bounds_witness :
    ((0 : ℤ) ≤ 10 ∧ (10 : ℤ) ≤ 20 ∧ (20 : ℤ) ≤ 31 ∧ stateInv initTemporalState)
    ∧ (((0 : ℤ) ≤ ((grow_region (fun _ => 0) 0 0).1 : ℤ)
      ∧ ((grow_region (fun _ => 0) 0 0).1 : ℤ) ≤ ((grow_region (fun _ => 0) 0 0).2 : ℤ)
      ∧ ((grow_region (fun _ => 0) 0 0).2 : ℤ) ≤ 31)
    ∧ validSpan (apply_geometry_constraints 10 20)
    ∧ validSpan (apply_temporal_constraints (apply_geometry_constraints 10 20).1
        (apply_geometry_constraints 10 20).2 initTemporalState)
    ∧ validSpan (apply_persistence
        (apply_temporal_constraints (apply_geometry_constraints 10 20).1
          (apply_geometry_constraints 10 20).2 initTemporalState).1
        (apply_temporal_constraints (apply_geometry_constraints 10 20).1
          (apply_geometry_constraints 10 20).2 initTemporalState).2 initTemporalState).1
    ∧ stateInv (apply_persistence
        (apply_temporal_constraints (apply_geometry_constraints 10 20).1
          (apply_geometry_constraints 10 20).2 initTemporalState).1
        (apply_temporal_constraints (apply_geometry_constraints 10 20).1
          (apply_geometry_constraints 10 20).2 initTemporalState).2 initTemporalState).2
    ∧ stateInv (detect_tyre uniformFrame20 initTemporalState).2
    ∧ ((detect_tyre uniformFrame20 initTemporalState).1.detected = true →
        1 ≤ (detect_tyre uniformFrame20 initTemporalState).1.tyre_width)) :=
  ⟨⟨by with_unfolding_all decide, by with_unfolding_all decide, by with_unfolding_all decide,
    by with_unfolding_all decide⟩,
   stabilizer_stage_bounds (fun _ => 0) 0 0 10 20 initTemporalState uniformFrame20
     (by with_unfolding_all decide) (by with_unfolding_all decide)
     (by with_unfolding_all decide) (by with_unfolding_all decide)⟩

end ThermalTyre
